import Mathlib

/-! Verification of the WebWorldWind level-of-detail tile pyramid and GPU
resource cache specification against the repository sources.

Pure functions from the JavaScript sources are embedded as Lean definitions;
stateful code is embedded as explicit state passing.  JavaScript machine
integers are modelled as `Nat`/`Int` with explicit two's-complement
conversions where the source relies on them.  Components of the repository
whose code is not present in the source tree (the GPU resource cache, the
retrieval pipeline, the tile level set and the tile-source key contract) are
modelled from the specification; their doc comments say so explicitly. -/

namespace WWSpec

/-! Embedding of `GeoTiffUtil.getBytes` (src/formats/geotiff/GeoTiffUtil.js).
The underlying ArrayBuffer is a list of bytes; DataView reads are modelled
bit-exactly for the integer variants, while `getFloat64` is carried as the
raw 64-bit pattern it reads (IEEE decoding is irrelevant to the claims). -/

/-- One byte of the underlying ArrayBuffer; out-of-range reads give 0 (the
claims under check do not exercise DataView range errors). -/
def byteAt (data : List Nat) (i : Nat) : Nat := data.getD i 0

/-- Unsigned big- or little-endian read of `n` bytes starting at `off`,
as performed by the DataView getUint8/getUint16/getUint32 family. -/
def readUnsigned (data : List Nat) (off n : Nat) (little : Bool) : Nat :=
  (if little then ((List.range n).map (fun i => byteAt data (off + i))).reverse
   else (List.range n).map (fun i => byteAt data (off + i))).foldl
    (fun acc b => acc * 256 + b) 0

/-- Two's-complement reinterpretation of a `w`-bit unsigned value, as done
by the DataView getInt8/getInt16/getInt32 family. -/
def toSigned (w v : Nat) : Int :=
  if v < 2 ^ (w - 1) then (v : Int) else (v : Int) - 2 ^ w

/-- DataView getUint8 (endianness is irrelevant for one byte). -/
def getUint8 (data : List Nat) (off : Nat) : Nat := byteAt data off

/-- DataView getInt8. -/
def getInt8 (data : List Nat) (off : Nat) : Int := toSigned 8 (getUint8 data off)

/-- DataView getUint16. -/
def getUint16 (data : List Nat) (off : Nat) (little : Bool) : Nat :=
  readUnsigned data off 2 little

/-- DataView getInt16. -/
def getInt16 (data : List Nat) (off : Nat) (little : Bool) : Int :=
  toSigned 16 (getUint16 data off little)

/-- DataView getUint32. -/
def getUint32 (data : List Nat) (off : Nat) (little : Bool) : Nat :=
  readUnsigned data off 4 little

/-- DataView getInt32. -/
def getInt32 (data : List Nat) (off : Nat) (little : Bool) : Int :=
  toSigned 32 (getUint32 data off little)

/-- DataView getFloat64, carried as the raw 64-bit pattern read. -/
def getFloat64bits (data : List Nat) (off : Nat) (little : Bool) : Nat :=
  readUnsigned data off 8 little

/-- JavaScript ToUint32 conversion. -/
def toUint32 (x : Int) : Nat := (x % (2 ^ 32 : Int)).toNat

/-- The JavaScript zero-fill right shift `x >>> k`. -/
def jsShrU (x : Int) (k : Nat) : Int := ((toUint32 x >>> k : Nat) : Int)

/-- A JavaScript number as produced by `getBytes`: the integer reads yield
integers, the eight-byte read yields a 64-bit float, carried as its raw bit
pattern. -/
inductive JsNum where
  | intVal (i : Int)
  | floatVal (bits : Nat)
deriving DecidableEq

/-- The two `ArgumentError` messages thrown by `GeoTiffUtil.getBytes`. -/
inductive GeoTiffErr where
  | noBytesRequested
  | tooManyBytesRequested
deriving DecidableEq

/-- True exactly on thrown errors. -/
def isErr {ε α : Type} : Except ε α → Bool
  | .error _ => true
  | .ok _ => false

/-- Embedding of `GeoTiffUtil.getBytes(geoTiffData, byteOffset, numOfBytes,
isLittleEndian, isSigned)`, following the source's if/else chain literally. -/
def getBytes (data : List Nat) (byteOffset : Nat) (numOfBytes : Int)
    (isLittleEndian isSigned : Bool) : Except GeoTiffErr JsNum :=
  if numOfBytes ≤ 0 then
    .error .noBytesRequested
  else if numOfBytes ≤ 1 then
    .ok (.intVal (if isSigned then getInt8 data byteOffset
                  else (getUint8 data byteOffset : Int)))
  else if numOfBytes ≤ 2 then
    .ok (.intVal (if isSigned then getInt16 data byteOffset isLittleEndian
                  else (getUint16 data byteOffset isLittleEndian : Int)))
  else if numOfBytes ≤ 3 then
    .ok (.intVal (if isSigned then jsShrU (getInt32 data byteOffset isLittleEndian) 8
                  else jsShrU ((getUint32 data byteOffset isLittleEndian : Nat) : Int) 8))
  else if numOfBytes ≤ 4 then
    .ok (.intVal (if isSigned then getInt32 data byteOffset isLittleEndian
                  else (getUint32 data byteOffset isLittleEndian : Int)))
  else if numOfBytes ≤ 8 then
    .ok (.floatVal (getFloat64bits data byteOffset isLittleEndian))
  else
    .error .tooManyBytesRequested

/-! Embedding of the `CompassLayer` compass setter (src/unnamed/part_000).
`RenderableLayer.addRenderable` appends to the renderables list and
`removeAllRenderables` clears it; RenderableLayer.js itself is not in the
source tree, so those two one-liners are modelled from their documented
behaviour. -/

/-- A JavaScript value as seen by the compass setter: a `Compass` instance,
`null`, `undefined`, or some other object. -/
inductive JsRef where
  | compassObj (id : Nat)
  | nullRef
  | undefinedRef
  | otherObj (id : Nat)
deriving DecidableEq

/-- JavaScript truthiness for the values above. -/
def truthy : JsRef → Bool
  | .nullRef => false
  | .undefinedRef => false
  | _ => true

/-- The JavaScript `instanceof Compass` test. -/
def isCompassInstance : JsRef → Bool
  | .compassObj _ => true
  | _ => false

/-- The `CompassLayer` state: its `_compass` field and the renderables list
inherited from `RenderableLayer`. -/
structure CompassLayer where
  compassField : JsRef
  renderables : List JsRef
deriving DecidableEq

/-- `RenderableLayer.removeAllRenderables` (modelled: clears the list). -/
def removeAllRenderables (l : CompassLayer) : CompassLayer :=
  { l with renderables := [] }

/-- `RenderableLayer.addRenderable` (modelled: appends to the list). -/
def addRenderable (r : JsRef) (l : CompassLayer) : CompassLayer :=
  { l with renderables := l.renderables ++ [r] }

/-- Embedding of the `compass` property setter of `CompassLayer`:
`if (compass && compass instanceof Compass) { removeAllRenderables();
addRenderable(compass); this._compass = compass; }`. -/
def setCompass (v : JsRef) (l : CompassLayer) : CompassLayer :=
  if truthy v && isCompassInstance v then
    { addRenderable v (removeAllRenderables l) with compassField := v }
  else l

/-- The `compass` property getter of `CompassLayer`. -/
def compassGet (l : CompassLayer) : JsRef := l.compassField

/-! Embedding of the ColladaScene dirty-flag protocol
(src/formats/collada/ColladaScene.js).  The transformation matrix is carried
symbolically as the list of Matrix multiplications `computeTransformationMatrix`
performs, so that recomputation is a concrete function of the scene fields. -/

/-- A symbolic WorldWind `Matrix` multiplication step, as performed by
`computeTransformationMatrix`. -/
inductive MatOp where
  | localCoordTransform (placePoint : Int) (globe : Nat)
  | rotationStep (x y z : Int) (angleDeg : Int)
  | scaleStep (x y z : Int)
  | translationStep (x y z : Int)
deriving DecidableEq

/-- The scene's altitude mode (src/constants.js string constants). -/
inductive AltitudeMode where
  | absolute
  | relativeToGround
  | clampToGround
deriving DecidableEq

/-- The transformation-relevant state of a `ColladaScene`: the fields read
by `computeTransformationMatrix`, the dirty flag `mustUpdate`, and the
`transformationMatrix` represented as the symbolic operation list. -/
structure SceneTransform where
  position : Int
  xRotation : Int
  yRotation : Int
  zRotation : Int
  xTranslation : Int
  yTranslation : Int
  zTranslation : Int
  scale : Int
  altitudeMode : AltitudeMode
  preX : Int
  preY : Int
  preZ : Int
  placePoint : Int
  transformationMatrix : List MatOp
  mustUpdate : Bool
deriving DecidableEq

/-- The `position` setter: `this._position = value; this.mustUpdate = true;`. -/
def setPosition (v : Int) (s : SceneTransform) : SceneTransform :=
  { s with position := v, mustUpdate := true }

/-- The `xRotation` setter. -/
def setXRotation (v : Int) (s : SceneTransform) : SceneTransform :=
  { s with xRotation := v, mustUpdate := true }

/-- The `yRotation` setter. -/
def setYRotation (v : Int) (s : SceneTransform) : SceneTransform :=
  { s with yRotation := v, mustUpdate := true }

/-- The `zRotation` setter. -/
def setZRotation (v : Int) (s : SceneTransform) : SceneTransform :=
  { s with zRotation := v, mustUpdate := true }

/-- The `xTranslation` setter. -/
def setXTranslation (v : Int) (s : SceneTransform) : SceneTransform :=
  { s with xTranslation := v, mustUpdate := true }

/-- The `yTranslation` setter. -/
def setYTranslation (v : Int) (s : SceneTransform) : SceneTransform :=
  { s with yTranslation := v, mustUpdate := true }

/-- The `zTranslation` setter. -/
def setZTranslation (v : Int) (s : SceneTransform) : SceneTransform :=
  { s with zTranslation := v, mustUpdate := true }

/-- The `scale` setter. -/
def setScale (v : Int) (s : SceneTransform) : SceneTransform :=
  { s with scale := v, mustUpdate := true }

/-- The `altitudeMode` setter. -/
def setAltitudeMode (v : AltitudeMode) (s : SceneTransform) : SceneTransform :=
  { s with altitudeMode := v, mustUpdate := true }

/-- The sequence of Matrix operations `computeTransformationMatrix` applies
to the identity: local-coordinate transform at the place point, the three
axis rotations, the uniform scale, the translation, then the three
pre-rotations. -/
def buildTransformationMatrix (s : SceneTransform) (globe : Nat) : List MatOp :=
  [ .localCoordTransform s.placePoint globe,
    .rotationStep 1 0 0 s.xRotation,
    .rotationStep 0 1 0 s.yRotation,
    .rotationStep 0 0 1 s.zRotation,
    .scaleStep s.scale s.scale s.scale,
    .translationStep s.xTranslation s.yTranslation s.zTranslation,
    .rotationStep 1 0 0 s.preX,
    .rotationStep 0 1 0 s.preY,
    .rotationStep 0 0 1 s.preZ ]

/-- Embedding of `ColladaScene.prototype.computeTransformationMatrix`:
returns immediately when `mustUpdate` is false, otherwise recomputes the
transformation matrix and clears the flag. -/
def computeTransformationMatrix (globe : Nat) (s : SceneTransform) : SceneTransform :=
  if s.mustUpdate = false then s
  else { s with transformationMatrix := buildTransformationMatrix s globe,
                mustUpdate := false }

/-! Modelled from the spec: `GpuResourceCache` (spec §4.3 and §3 CacheEntry).
The cache implementation is not in the source tree; only its callers
(ColladaScene) and its configured byte budget (constants.js
`configuration.gpuCacheSize`) are.  Keys and resource handles are opaque
naturals.  Recency is a monotone touch clock plus the frame of the last
touch; eviction removes least-recently-touched entries, skipping entries
touched in the current frame, until the budget is satisfied, and the
insertion fails (CacheOverflow, state unchanged) when it cannot be. -/

/-- A resident cache entry: resource handle, its byte size, the value of the
touch clock at its last touch, and the frame of that touch. -/
structure CacheEntry where
  resource : Nat
  byteSize : Nat
  lastTouched : Nat
  touchedFrame : Nat
deriving DecidableEq

/-- The GPU resource cache state: configured byte budget, current frame
counter, monotone touch clock, and the resident entries keyed by resource
key. -/
structure GpuCache where
  budget : Nat
  frame : Nat
  clock : Nat
  entries : List (Nat × CacheEntry)
deriving DecidableEq

/-- A fresh cache with the configured byte budget. -/
def GpuCache.empty (b : Nat) : GpuCache := ⟨b, 0, 0, []⟩

/-- Total resident byte size. -/
def totalBytes (c : GpuCache) : Nat :=
  (c.entries.map (fun e => e.2.byteSize)).sum

/-- Non-touching lookup of the resource handle stored under `k`. -/
def peek (k : Nat) (c : GpuCache) : Option Nat :=
  (c.entries.find? (fun e => e.1 == k)).map (fun e => e.2.resource)

/-- Remove the entry stored under `k` (`removeResource`). -/
def removeKey (k : Nat) (c : GpuCache) : GpuCache :=
  { c with entries := c.entries.filter (fun e => e.1 != k) }

/-- Update the recency marker of the entry stored under `k`. -/
def touchKey (k : Nat) (c : GpuCache) : GpuCache :=
  { c with clock := c.clock + 1,
           entries := c.entries.map (fun e =>
             if e.1 == k then
               (e.1, { e.2 with lastTouched := c.clock, touchedFrame := c.frame })
             else e) }

/-- `resourceForKey`: non-blocking read; touching a present entry updates
its recency marker. -/
def resourceForKey (k : Nat) (c : GpuCache) : Option Nat × GpuCache :=
  match peek k c with
  | some r => (some r, touchKey k c)
  | none => (none, c)

/-- An entry is evictable when it was not touched in the current frame. -/
def evictableEntry (c : GpuCache) (e : Nat × CacheEntry) : Bool :=
  e.2.touchedFrame != c.frame

/-- The least-recently-touched of `e :: es`. -/
def minByTouch (e : Nat × CacheEntry) : List (Nat × CacheEntry) → Nat × CacheEntry
  | [] => e
  | x :: xs => minByTouch (if x.2.lastTouched < e.2.lastTouched then x else e) xs

/-- The eviction victim: the least-recently-touched entry not touched in the
current frame, when one exists. -/
def findVictim (c : GpuCache) : Option Nat :=
  match c.entries.filter (evictableEntry c) with
  | [] => none
  | e :: es => some (minByTouch e es).1

/-- Evict victims until inserting `needed` further bytes would satisfy the
budget, or no evictable entry remains; fuelled by the entry count. -/
def evictLoop (needed : Nat) : Nat → GpuCache → GpuCache
  | 0, c => c
  | fuel + 1, c =>
    if totalBytes c + needed ≤ c.budget then c
    else
      match findVictim c with
      | none => c
      | some k => evictLoop needed fuel (removeKey k c)

/-- Evict least-recently-touched entries (excluding entries touched in the
current frame) until the budget accommodates `needed` further bytes. -/
def evictUntilFit (needed : Nat) (c : GpuCache) : GpuCache :=
  evictLoop needed c.entries.length c

/-- Add a fresh entry under `k`, touched now. -/
def insertEntry (k r s : Nat) (c : GpuCache) : GpuCache :=
  { c with clock := c.clock + 1,
           entries := (k, ⟨r, s, c.clock, c.frame⟩) :: c.entries }

/-- `putResource(key, resource, byteSize)`: replaces any entry under the
key, evicts until the budget is satisfied, then inserts; when even after
evicting every evictable entry the budget would be exceeded the insertion
fails (CacheOverflow) and the cache is left unchanged. -/
def putResource (k r s : Nat) (c : GpuCache) : GpuCache :=
  let c1 := evictUntilFit s (removeKey k c)
  if totalBytes c1 + s ≤ c1.budget then insertEntry k r s c1 else c

/-- `putResource` succeeds (no CacheOverflow) on this cache. -/
def putOk (k s : Nat) (c : GpuCache) : Prop :=
  totalBytes (evictUntilFit s (removeKey k c)) + s
    ≤ (evictUntilFit s (removeKey k c)).budget

instance (k s : Nat) (c : GpuCache) : Decidable (putOk k s c) := by
  unfold putOk; infer_instance

/-- `clear()`: explicit release of every entry. -/
def clearCache (c : GpuCache) : GpuCache := { c with entries := [] }

/-- Advance the frame counter (the caller's per-frame tick, spec §6). -/
def nextFrame (c : GpuCache) : GpuCache := { c with frame := c.frame + 1 }

/-- One cache operation of the mutating interface. -/
inductive CacheOp where
  | put (k r s : Nat)
  | get (k : Nat)
  | remove (k : Nat)
  | clearOp
  | frameEnd
deriving DecidableEq

/-- Apply one operation. -/
def applyOp : CacheOp → GpuCache → GpuCache
  | .put k r s, c => putResource k r s c
  | .get k, c => (resourceForKey k c).2
  | .remove k, c => removeKey k c
  | .clearOp, c => clearCache c
  | .frameEnd, c => nextFrame c

/-- Run a sequence of operations. -/
def runOps (ops : List CacheOp) (c : GpuCache) : GpuCache :=
  ops.foldl (fun st op => applyOp op st) c

/-- `op` neither targets key `k` with a put, nor removes it, nor clears the
cache (the claim's "until evicted or removed" side condition). -/
def sparesKey (k : Nat) : CacheOp → Bool
  | .put k2 _ _ => k2 != k
  | .remove k2 => k2 != k
  | .clearOp => false
  | _ => true

/-- The concrete eviction scenario of the spec's testable property: budget
fitting two unit-size entries; insert A=1, B=2, C=3 (C's insertion overflows
and fails, every resident entry having been touched in the current frame),
frame boundary, touch A, insert D=4 (which evicts B, the least-recently
touched entry not touched in the current frame). -/
def c3trace : GpuCache :=
  runOps [.put 1 101 1, .put 2 102 1, .put 3 103 1, .frameEnd, .get 1, .put 4 104 1]
    (GpuCache.empty 2)

/-- A concrete cache in which entry 2 is evictable and entry 1 was touched
in the current frame (the state just before the final insertion of the
eviction scenario). -/
def cacheW : GpuCache :=
  ⟨2, 1, 3, [(2, ⟨102, 1, 1, 0⟩), (1, ⟨101, 1, 2, 1⟩)]⟩

/-! Modelled from the spec: `RetrievalPipeline` (spec §4.4, §5).  The
pipeline implementation is not in the source tree.  Per spec §5 the
de-duplication table is guarded by a mutual-exclusion lock held for the
check-and-insert critical section, so every pipeline operation is atomic
and a concurrent execution is an arbitrary interleaving, i.e. an arbitrary
sequence of atomic events.  The state machine per PendingRequest is
QUEUED → IN_FLIGHT → {DONE, FAILED}; a request is destroyed when its
terminal result has been consumed. -/

/-- A tile address: level, row and column in the pyramid. -/
structure TileAddr where
  level : Nat
  row : Nat
  col : Nat
deriving DecidableEq

/-- The de-duplication key: one PendingRequest per (source, address). -/
abbrev PipeKey := Nat × TileAddr

/-- PendingRequest states QUEUED, IN_FLIGHT, DONE, FAILED. -/
inductive ReqState where
  | queued
  | inFlight
  | reqDone
  | reqFailed
deriving DecidableEq

/-- Association-table lookup. -/
def tabGet (k : PipeKey) (t : List (PipeKey × ReqState)) : Option ReqState :=
  (t.find? (fun e => decide (e.1 = k))).map (fun e => e.2)

/-- Association-table update. -/
def tabSet (k : PipeKey) (v : ReqState) (t : List (PipeKey × ReqState)) :
    List (PipeKey × ReqState) :=
  (k, v) :: t.filter (fun e => decide (e.1 ≠ k))

/-- Association-table deletion. -/
def tabDel (k : PipeKey) (t : List (PipeKey × ReqState)) :
    List (PipeKey × ReqState) :=
  t.filter (fun e => decide (e.1 ≠ k))

/-- In-flight fetch count per key (0 when absent). -/
def actGet (k : PipeKey) (a : List (PipeKey × Nat)) : Nat :=
  ((a.find? (fun e => decide (e.1 = k))).map (fun e => e.2)).getD 0

/-- Set the in-flight fetch count of a key. -/
def actSet (k : PipeKey) (n : Nat) (a : List (PipeKey × Nat)) :
    List (PipeKey × Nat) :=
  (k, n) :: a.filter (fun e => decide (e.1 ≠ k))

/-- The pipeline state: the PendingRequest table and, as observation
instrumentation, the number of underlying fetches currently in flight for
each key. -/
structure PipeState where
  table : List (PipeKey × ReqState)
  active : List (PipeKey × Nat)
deriving DecidableEq

/-- The initial pipeline: nothing pending, nothing in flight. -/
def initPipe : PipeState := ⟨[], []⟩

/-- `requestTile(address, source)`: when a PendingRequest for this key is
QUEUED or IN_FLIGHT, return the existing one and change nothing; otherwise
create a fresh QUEUED request. -/
def requestTile (k : PipeKey) (st : PipeState) : PipeState × ReqState :=
  match tabGet k st.table with
  | some .queued => (st, .queued)
  | some .inFlight => (st, .inFlight)
  | _ => ({ st with table := tabSet k .queued st.table }, .queued)

/-- One atomic pipeline event: a `requestTile` call, a worker picking a
queued request up (this is the moment an underlying fetch starts), fetch
completion or failure, and consumption of a terminal result. -/
inductive PipeEvent where
  | request (k : PipeKey)
  | startFetch (k : PipeKey)
  | fetchDone (k : PipeKey)
  | fetchFailed (k : PipeKey)
  | consume (k : PipeKey)
deriving DecidableEq

/-- The pipeline transition function. -/
def stepEvent : PipeEvent → PipeState → PipeState
  | .request k, st => (requestTile k st).1
  | .startFetch k, st =>
    match tabGet k st.table with
    | some .queued =>
      ⟨tabSet k .inFlight st.table, actSet k (actGet k st.active + 1) st.active⟩
    | _ => st
  | .fetchDone k, st =>
    match tabGet k st.table with
    | some .inFlight =>
      ⟨tabSet k .reqDone st.table, actSet k (actGet k st.active - 1) st.active⟩
    | _ => st
  | .fetchFailed k, st =>
    match tabGet k st.table with
    | some .inFlight =>
      ⟨tabSet k .reqFailed st.table, actSet k (actGet k st.active - 1) st.active⟩
    | _ => st
  | .consume k, st =>
    match tabGet k st.table with
    | some .reqDone => ⟨tabDel k st.table, st.active⟩
    | some .reqFailed => ⟨tabDel k st.table, st.active⟩
    | _ => st

/-- Run an arbitrary interleaving of atomic pipeline events. -/
def runEvents (es : List PipeEvent) : PipeState :=
  es.foldl (fun st e => stepEvent e st) initPipe

/-- The pipeline invariant: a key has exactly one underlying fetch in
flight when its PendingRequest is IN_FLIGHT, and none otherwise. -/
def PipeInv (st : PipeState) : Prop :=
  ∀ k, actGet k st.active = if tabGet k st.table = some .inFlight then 1 else 0

/-- A concrete pipeline state with one queued request. -/
def pipeW : PipeState := ⟨[((0, ⟨0, 0, 0⟩), .queued)], []⟩

/-! Modelled from the spec: the `TileSource.keyFor` contract (spec §4.2).
No TileSource implementation is in the source tree (ColladaScene derives
texture keys, and the WMS/WCS url builders live elsewhere); per the spec a
ResourceKey is derived from source + address and carries a source
discriminator. -/

/-- A tile source, identified by its discriminator. -/
structure TileSource where
  srcId : Nat
deriving DecidableEq

/-- A resource key: the source discriminator plus the address fields. -/
structure ResourceKey where
  src : Nat
  level : Nat
  row : Nat
  col : Nat
deriving DecidableEq

/-- `keyFor(address)`: pure function of the source and the address. -/
def keyFor (s : TileSource) (a : TileAddr) : ResourceKey :=
  ⟨s.srcId, a.level, a.row, a.col⟩

/-! Embedding of `ColladaScene.prototype.loadTextures` and
`ColladaScene.prototype.renderOrdered`
(src/formats/collada/ColladaScene.js).  An entity carries its texture cache
key (`none` for untextured meshes) and its sticky `textureLoaded` flag; the
GPU cache is abstracted as the list of resident texture keys.
`retrieveTexture` only starts an asynchronous load, so a miss contributes
no resource in the current frame. -/

/-- One flattened scene entity, as produced by `flattenModel`. -/
structure ColladaEntity where
  texture : Option Nat
  textureLoaded : Bool
deriving DecidableEq

/-- The texture-loading state of a `ColladaScene`. -/
structure ColladaTexState where
  entities : List ColladaEntity
  allTexturesLoaded : Bool
deriving DecidableEq

/-- The entity loop of `loadTextures`: entities without a texture or with
`textureLoaded` set are skipped; a cache hit marks the entity loaded; a
miss calls `retrieveTexture` (asynchronous, no resource this frame), clears
the entity flag and clears the all-attempted flag (source field:
`partialTexturesLoaded`). -/
def loadEntities (cache : List Nat) : List ColladaEntity → Bool → List ColladaEntity × Bool
  | [], pt => ([], pt)
  | e :: es, pt =>
    match e.texture with
    | none =>
      let r := loadEntities cache es pt
      (e :: r.1, r.2)
    | some tid =>
      if e.textureLoaded then
        let r := loadEntities cache es pt
        (e :: r.1, r.2)
      else if decide (tid ∈ cache) then
        let r := loadEntities cache es pt
        ({ e with textureLoaded := true } :: r.1, r.2)
      else
        let r := loadEntities cache es pt
        ({ e with textureLoaded := false } :: r.1, false)

/-- An entity whose texture is wanted but neither marked loaded nor
resident in the cache. -/
def entityMissing (cache : List Nat) (e : ColladaEntity) : Bool :=
  match e.texture with
  | none => false
  | some t => !e.textureLoaded && !(decide (t ∈ cache))

/-- Embedding of `ColladaScene.prototype.loadTextures`: a no-op once
`allTexturesLoaded` latched; otherwise runs the entity loop and latches
`allTexturesLoaded` when every entity was attempted successfully. -/
def loadTextures (cache : List Nat) (s : ColladaTexState) : ColladaTexState :=
  if s.allTexturesLoaded then s
  else
    let r := loadEntities cache s.entities true
    ⟨r.1, if r.2 then true else s.allTexturesLoaded⟩

/-- Embedding of `ColladaScene.prototype.renderOrdered`: loads textures,
then returns without drawing unless `allTexturesLoaded`; the Bool is
whether `drawOrderedScene` ran this frame. -/
def renderOrdered (cache : List Nat) (s : ColladaTexState) : ColladaTexState × Bool :=
  let s2 := loadTextures cache s
  if s2.allTexturesLoaded = false then (s2, false) else (s2, true)

/-- A concrete scene: two textured entities (keys 5 and 7) and one
untextured entity, nothing loaded yet. -/
def sceneW : ColladaTexState :=
  ⟨[⟨some 5, false⟩, ⟨some 7, false⟩, ⟨none, false⟩], false⟩

/-! Modelled from the spec: `TileLevelSet` / `tilesForSector` (spec §4.1,
§3 Sector and TileAddress).  No level-set implementation is in the source
tree.  Geographic coordinates are rational degrees; the pyramid halves the
tile delta per level; `tilesForSector` picks the coarsest level whose
per-tile resolution is at most the target (the finest level when none
qualifies), clips the query sector to the configured extent (spec §4.1
edge case), and returns the covering row-major block of addresses. -/

/-- A geographic sector: minimum/maximum latitude and longitude, degrees. -/
structure Sector where
  minLat : ℚ
  maxLat : ℚ
  minLon : ℚ
  maxLon : ℚ
deriving DecidableEq

/-- A point is inside a sector. -/
def inSector (s : Sector) (lat lon : ℚ) : Prop :=
  s.minLat ≤ lat ∧ lat ≤ s.maxLat ∧ s.minLon ≤ lon ∧ lon ≤ s.maxLon

instance (s : Sector) (lat lon : ℚ) : Decidable (inSector s lat lon) := by
  unfold inSector
  infer_instance

/-- The tile pyramid: geographic extent, number of levels, level-0 grid
size, and tile size in pixels. -/
structure TilePyramid where
  extent : Sector
  numLevels : Nat
  rows0 : Nat
  cols0 : Nat
  tileSize : Nat
deriving DecidableEq

/-- Rows at a level: the level-0 count doubles per level. -/
def rowCount (p : TilePyramid) (l : Nat) : Nat := p.rows0 * 2 ^ l

/-- Columns at a level. -/
def colCount (p : TilePyramid) (l : Nat) : Nat := p.cols0 * 2 ^ l

/-- Latitudinal extent of one tile at a level. -/
def deltaLat (p : TilePyramid) (l : Nat) : ℚ :=
  (p.extent.maxLat - p.extent.minLat) / ((rowCount p l : Nat) : ℚ)

/-- Longitudinal extent of one tile at a level. -/
def deltaLon (p : TilePyramid) (l : Nat) : ℚ :=
  (p.extent.maxLon - p.extent.minLon) / ((colCount p l : Nat) : ℚ)

/-- Per-tile resolution of a level, in degrees per pixel. -/
def levelResolution (p : TilePyramid) (l : Nat) : ℚ :=
  deltaLat p l / ((p.tileSize : Nat) : ℚ)

/-- Scan levels coarse-to-fine for the first whose resolution satisfies the
target, returning the last scanned level when none does. -/
def chooseLevelGo (p : TilePyramid) (targetRes : ℚ) : Nat → Nat → Nat
  | l, 0 => l
  | l, fuel + 1 =>
    if levelResolution p l ≤ targetRes then l
    else chooseLevelGo p targetRes (l + 1) fuel

/-- The coarsest level whose per-tile resolution is ≤ the target resolution
(the finest level when none qualifies). -/
def chooseLevel (p : TilePyramid) (targetRes : ℚ) : Nat :=
  chooseLevelGo p targetRes 0 (p.numLevels - 1)

/-- Clamp an integer tile index into `[0, count)`. -/
def clampIndex (count : Nat) (i : ℤ) : Nat :=
  (min ((count : ℤ) - 1) (max 0 i)).toNat

/-- The clamped grid index of coordinate `x` on an axis with origin `a`,
tile delta `d` and `count` tiles. -/
def idx1 (a d : ℚ) (count : Nat) (x : ℚ) : Nat :=
  clampIndex count ⌊(x - a) / d⌋

/-- The row containing a latitude at a level. -/
def rowOf (p : TilePyramid) (l : Nat) (lat : ℚ) : Nat :=
  idx1 p.extent.minLat (deltaLat p l) (rowCount p l) lat

/-- The column containing a longitude at a level. -/
def colOf (p : TilePyramid) (l : Nat) (lon : ℚ) : Nat :=
  idx1 p.extent.minLon (deltaLon p l) (colCount p l) lon

/-- The geographic sector of the tile (level, row, column). -/
def tileSector (p : TilePyramid) (t : Nat × Nat × Nat) : Sector :=
  ⟨p.extent.minLat + (t.2.1 : ℚ) * deltaLat p t.1,
   p.extent.minLat + ((t.2.1 : ℚ) + 1) * deltaLat p t.1,
   p.extent.minLon + (t.2.2 : ℚ) * deltaLon p t.1,
   p.extent.minLon + ((t.2.2 : ℚ) + 1) * deltaLon p t.1⟩

/-- Clip a sector to the pyramid extent (spec §4.1 edge case). -/
def clipSector (ext s : Sector) : Sector :=
  ⟨max s.minLat ext.minLat, min s.maxLat ext.maxLat,
   max s.minLon ext.minLon, min s.maxLon ext.maxLon⟩

/-- The row-major block of addresses `(l, r, c)` for `r0 ≤ r ≤ r1`,
`c0 ≤ c ≤ c1`. -/
def tilesBlock (l r0 r1 c0 c1 : Nat) : List (Nat × Nat × Nat) :=
  ((List.range (r1 + 1 - r0)).map (fun dr =>
    (List.range (c1 + 1 - c0)).map (fun dc => (l, r0 + dr, c0 + dc)))).flatten

/-- `tilesForSector(sector, targetResolution)`: address block, row-major,
of the clipped sector at the chosen level. -/
def tilesForSector (p : TilePyramid) (s : Sector) (targetRes : ℚ) :
    List (Nat × Nat × Nat) :=
  tilesBlock (chooseLevel p targetRes)
    (rowOf p (chooseLevel p targetRes) (clipSector p.extent s).minLat)
    (rowOf p (chooseLevel p targetRes) (clipSector p.extent s).maxLat)
    (colOf p (chooseLevel p targetRes) (clipSector p.extent s).minLon)
    (colOf p (chooseLevel p targetRes) (clipSector p.extent s).maxLon)

/-- A non-degenerate pyramid. -/
def wellFormed (p : TilePyramid) : Prop :=
  p.extent.minLat < p.extent.maxLat ∧ p.extent.minLon < p.extent.maxLon
    ∧ 0 < p.rows0 ∧ 0 < p.cols0 ∧ 0 < p.tileSize ∧ 0 < p.numLevels

instance (p : TilePyramid) : Decidable (wellFormed p) := by
  unfold wellFormed
  infer_instance

/-- A one-level, one-tile pyramid over the sector [0,90]×[0,90] with
one-pixel tiles (resolution 90 degrees per pixel). -/
def pyramid1 : TilePyramid := ⟨⟨0, 90, 0, 90⟩, 1, 1, 1, 1⟩

/-- A query sector reaching south of `pyramid1`'s extent. -/
def sector1 : Sector := ⟨-10, 10, 0, 10⟩

/-! Theorems. -/

/-- Claim C8: `GeoTiffUtil.getBytes` throws `ArgumentError` exactly when
`numOfBytes ≤ 0` or `numOfBytes > 8`; for every `numOfBytes` in 5..8 it
returns the result of the 64-bit float read regardless of the `isSigned`
flag; and for `numOfBytes = 3` with `isSigned` true it returns the signed
32-bit read zero-fill-shifted right by 8 bits, which is never negative. -/
theorem c8_getBytes_behavior (data : List Nat) (off : Nat) (le sg : Bool) (n : Int) :
    (isErr (getBytes data off n le sg) = true ↔ (n ≤ 0 ∨ 8 < n))
    ∧ (5 ≤ n → n ≤ 8 →
        getBytes data off n le true = getBytes data off n le false
        ∧ getBytes data off n le sg = .ok (.floatVal (getFloat64bits data off le)))
    ∧ getBytes data off 3 le true = .ok (.intVal (jsShrU (getInt32 data off le) 8))
    ∧ 0 ≤ jsShrU (getInt32 data off le) 8 := by
  refine ⟨?_, ?_, ?_, ?_⟩
  · unfold getBytes
    split_ifs <;> simp [isErr] <;> omega
  · intro h5 h8
    unfold getBytes
    split_ifs <;> first | exact ⟨rfl, rfl⟩ | (exfalso; omega)
  · norm_num [getBytes]
  · unfold jsShrU
    exact Int.natCast_nonneg _

/-- Witness for C8 at concrete inputs: the bytes 0xFF 0xFF 0xFF 0xFF store
the negative 32-bit integer −1, yet the claim applies. -/
theorem c8_getBytes_behavior_witness :
    ((5 : Int) ≤ 5 ∧ (5 : Int) ≤ 8)
    ∧ getBytes [255, 255, 255, 255] 0 5 false true
      = getBytes [255, 255, 255, 255] 0 5 false false
    ∧ getBytes [255, 255, 255, 255] 0 3 false true
      = .ok (.intVal (jsShrU (getInt32 [255, 255, 255, 255] 0 false) 8)) :=
  ⟨⟨by norm_num, by norm_num⟩,
   ((c8_getBytes_behavior [255, 255, 255, 255] 0 false true 5).2.1
      (by norm_num) (by norm_num)).1,
   (c8_getBytes_behavior [255, 255, 255, 255] 0 false true 3).2.2.1⟩

/-- Claim C9: the `CompassLayer` compass setter ignores `null`, `undefined`
and every non-`Compass` value, leaving both the stored `_compass` and the
renderables list unchanged; for a `Compass` instance it makes the
renderables list exactly that compass and the getter return it. -/
theorem c9_compass_setter (v : JsRef) (l : CompassLayer) :
    (isCompassInstance v = false → setCompass v l = l)
    ∧ (isCompassInstance v = true →
        (setCompass v l).renderables = [v] ∧ compassGet (setCompass v l) = v) := by
  cases v <;>
    simp [setCompass, removeAllRenderables, addRenderable, truthy,
      isCompassInstance, compassGet]

/-- Witness for C9: a `null` assignment leaves the layer unchanged, and
assigning a `Compass` instance replaces the renderables with exactly it. -/
theorem c9_compass_setter_witness :
    setCompass .nullRef ⟨.compassObj 5, [.compassObj 5]⟩
      = (⟨.compassObj 5, [.compassObj 5]⟩ : CompassLayer)
    ∧ (setCompass (.compassObj 0) ⟨.nullRef, [.otherObj 1]⟩).renderables
      = [.compassObj 0] :=
  ⟨(c9_compass_setter .nullRef ⟨.compassObj 5, [.compassObj 5]⟩).1 rfl,
   ((c9_compass_setter (.compassObj 0) ⟨.nullRef, [.otherObj 1]⟩).2 rfl).1⟩

/-- Claim C10: every setter among position, xRotation, yRotation, zRotation,
xTranslation, yTranslation, zTranslation, scale and altitudeMode sets
`mustUpdate`; `computeTransformationMatrix` returns immediately leaving the
matrix unchanged when the flag is clear, and otherwise recomputes the matrix
and clears the flag. -/
theorem c10_dirty_flag (s : SceneTransform) (g : Nat) (v : Int) (m : AltitudeMode) :
    (setPosition v s).mustUpdate = true
    ∧ (setXRotation v s).mustUpdate = true
    ∧ (setYRotation v s).mustUpdate = true
    ∧ (setZRotation v s).mustUpdate = true
    ∧ (setXTranslation v s).mustUpdate = true
    ∧ (setYTranslation v s).mustUpdate = true
    ∧ (setZTranslation v s).mustUpdate = true
    ∧ (setScale v s).mustUpdate = true
    ∧ (setAltitudeMode m s).mustUpdate = true
    ∧ (s.mustUpdate = false → computeTransformationMatrix g s = s)
    ∧ (s.mustUpdate = true →
        (computeTransformationMatrix g s).transformationMatrix
          = buildTransformationMatrix s g
        ∧ (computeTransformationMatrix g s).mustUpdate = false) := by
  refine ⟨rfl, rfl, rfl, rfl, rfl, rfl, rfl, rfl, rfl, ?_, ?_⟩
  · intro h
    simp [computeTransformationMatrix, h]
  · intro h
    simp [computeTransformationMatrix, h]

/-- Witness for C10 at a concrete dirty scene. -/
theorem c10_dirty_flag_witness :
    (computeTransformationMatrix 0
        ⟨0, 1, 2, 3, 4, 5, 6, 7, .absolute, 0, 0, 0, 9, [], true⟩).mustUpdate
      = false :=
  ((c10_dirty_flag ⟨0, 1, 2, 3, 4, 5, 6, 7, .absolute, 0, 0, 0, 9, [], true⟩
      0 0 .absolute).2.2.2.2.2.2.2.2.2.2 rfl).2

/-! Lemmas about the cache model. -/

lemma sum_filter_le (p : Nat × CacheEntry → Bool) (l : List (Nat × CacheEntry)) :
    ((l.filter p).map (fun e => e.2.byteSize)).sum
      ≤ (l.map (fun e => e.2.byteSize)).sum := by
  induction l with
  | nil => simp
  | cons a l ih =>
    by_cases h : p a
    · simp only [List.filter_cons, h, if_pos, List.map_cons, List.sum_cons]
      omega
    · simp only [List.filter_cons, h, List.map_cons, List.sum_cons, Bool.false_eq_true,
        if_false]
      omega

lemma totalBytes_removeKey_le (k : Nat) (c : GpuCache) :
    totalBytes (removeKey k c) ≤ totalBytes c :=
  sum_filter_le _ c.entries

lemma sum_map_byteSize_map (g : Nat × CacheEntry → Nat × CacheEntry)
    (hg : ∀ e, (g e).2.byteSize = e.2.byteSize) (l : List (Nat × CacheEntry)) :
    ((l.map g).map (fun e => e.2.byteSize)).sum
      = (l.map (fun e => e.2.byteSize)).sum := by
  induction l with
  | nil => rfl
  | cons a l ih => simp only [List.map_cons, List.sum_cons, ih, hg]

lemma totalBytes_touchKey (k : Nat) (c : GpuCache) :
    totalBytes (touchKey k c) = totalBytes c := by
  unfold totalBytes touchKey
  exact sum_map_byteSize_map _
    (fun e => by by_cases h : e.1 == k <;> simp [h]) c.entries

lemma evictLoop_budget (n fuel : Nat) (c : GpuCache) :
    (evictLoop n fuel c).budget = c.budget := by
  induction fuel generalizing c with
  | zero => rfl
  | succ fuel ih =>
    unfold evictLoop
    by_cases hfit : totalBytes c + n ≤ c.budget
    · simp [hfit]
    · simp only [hfit, if_false]
      cases hv : findVictim c
      · rfl
      · exact (ih _).trans rfl

lemma evictUntilFit_budget (n : Nat) (c : GpuCache) :
    (evictUntilFit n c).budget = c.budget :=
  evictLoop_budget n c.entries.length c

lemma totalBytes_insertEntry (k r s : Nat) (c : GpuCache) :
    totalBytes (insertEntry k r s c) = s + totalBytes c := by
  unfold totalBytes insertEntry
  simp

lemma totalBytes_clearCache (c : GpuCache) : totalBytes (clearCache c) = 0 := by
  unfold totalBytes clearCache
  simp

lemma applyOp_budget (op : CacheOp) (c : GpuCache) :
    (applyOp op c).budget = c.budget := by
  cases op with
  | put k r s =>
    show (putResource k r s c).budget = c.budget
    unfold putResource
    by_cases hfit : totalBytes (evictUntilFit s (removeKey k c)) + s
        ≤ (evictUntilFit s (removeKey k c)).budget
    · rw [if_pos hfit]
      show (evictUntilFit s (removeKey k c)).budget = c.budget
      rw [evictUntilFit_budget]
      rfl
    · rw [if_neg hfit]
  | get k =>
    show (resourceForKey k c).2.budget = c.budget
    unfold resourceForKey
    cases hp : peek k c <;> rfl
  | remove k => rfl
  | clearOp => rfl
  | frameEnd => rfl

lemma applyOp_inv (op : CacheOp) (c : GpuCache) (h : totalBytes c ≤ c.budget) :
    totalBytes (applyOp op c) ≤ (applyOp op c).budget := by
  cases op with
  | put k r s =>
    show totalBytes (putResource k r s c) ≤ (putResource k r s c).budget
    unfold putResource
    by_cases hfit : totalBytes (evictUntilFit s (removeKey k c)) + s
        ≤ (evictUntilFit s (removeKey k c)).budget
    · rw [if_pos hfit, totalBytes_insertEntry]
      show s + totalBytes (evictUntilFit s (removeKey k c))
        ≤ (evictUntilFit s (removeKey k c)).budget
      omega
    · rw [if_neg hfit]
      exact h
  | get k =>
    show totalBytes (resourceForKey k c).2 ≤ (resourceForKey k c).2.budget
    unfold resourceForKey
    cases hp : peek k c
    · exact h
    · show totalBytes (touchKey k c) ≤ (touchKey k c).budget
      rw [totalBytes_touchKey]
      exact h
  | remove k =>
    exact (totalBytes_removeKey_le k c).trans h
  | clearOp =>
    show totalBytes (clearCache c) ≤ (clearCache c).budget
    rw [totalBytes_clearCache]
    exact Nat.zero_le _
  | frameEnd => exact h

lemma runOps_inv (ops : List CacheOp) (c : GpuCache) (h : totalBytes c ≤ c.budget) :
    totalBytes (runOps ops c) ≤ (runOps ops c).budget := by
  induction ops generalizing c with
  | nil => exact h
  | cons op ops ih => exact ih (applyOp op c) (applyOp_inv op c h)

lemma runOps_budget (ops : List CacheOp) (c : GpuCache) :
    (runOps ops c).budget = c.budget := by
  induction ops generalizing c with
  | nil => rfl
  | cons op ops ih => exact (ih (applyOp op c)).trans (applyOp_budget op c)

/-- Claim C2: after any sequence of cache operations starting from a fresh
cache, the sum of `byteSize` over all resident entries is at most the
configured byte budget — a post-condition after every mutating call, since
`ops` ranges over all operation sequences and hence all prefixes. -/
theorem c2_budget_invariant (ops : List CacheOp) (b : Nat) :
    totalBytes (runOps ops (GpuCache.empty b)) ≤ b := by
  have h := runOps_inv ops (GpuCache.empty b) (Nat.zero_le _)
  rwa [runOps_budget ops (GpuCache.empty b)] at h

/-! Lemmas about lookups under the cache-mutating operations. -/

lemma find?_map_of_pred {α : Type} (g : α → α) (p : α → Bool)
    (hp : ∀ e, p (g e) = p e) (l : List α) :
    (l.map g).find? p = (l.find? p).map g := by
  induction l with
  | nil => rfl
  | cons a l ih =>
    by_cases h : p a
    · simp [List.find?, hp, h]
    · simp only [List.map_cons, List.find?]
      rw [hp a]
      simp only [h, Bool.false_eq_true, if_false]
      simpa using ih

lemma peek_touchKey (k k2 : Nat) (c : GpuCache) :
    peek k (touchKey k2 c) = peek k c := by
  unfold peek touchKey
  simp only []
  rw [find?_map_of_pred]
  · cases hf : c.entries.find? (fun e => e.1 == k) with
    | none => rfl
    | some e => by_cases h : e.1 = k2 <;> simp [h]
  · intro e
    by_cases h : e.1 = k2 <;> simp [h]

lemma find?_filter_comm (k k2 : Nat) (l : List (Nat × CacheEntry)) :
    (l.filter (fun e => e.1 != k2)).find? (fun e => e.1 == k)
      = if k = k2 then none else l.find? (fun e => e.1 == k) := by
  induction l with
  | nil => by_cases h : k = k2 <;> simp [h]
  | cons a l ih =>
    by_cases ha2 : a.1 = k2
    · have hfc : (a.1 != k2) = false := by simp [ha2]
      by_cases hk : k = k2
      · simp [List.filter_cons, hfc, ih, hk]
      · have hak : (a.1 == k) = false := by
          refine beq_eq_false_iff_ne.mpr ?_
          intro hcontra
          exact hk (by rw [← hcontra]; exact ha2)
        simp [List.filter_cons, hfc, List.find?, hak, ih, hk]
    · have hfc : (a.1 != k2) = true := bne_iff_ne.mpr ha2
      by_cases hak : a.1 = k
      · have hk : ¬ k = k2 := fun hkk => ha2 (by rw [hak, hkk])
        have hb : (a.1 == k) = true := beq_iff_eq.mpr hak
        simp [List.filter_cons, hfc, List.find?, hb, hk]
      · have hb : (a.1 == k) = false := beq_eq_false_iff_ne.mpr hak
        simp [List.filter_cons, hfc, List.find?, hb, ih]

lemma peek_removeKey (k k2 : Nat) (c : GpuCache) :
    peek k (removeKey k2 c) = if k = k2 then none else peek k c := by
  unfold peek removeKey
  simp only []
  rw [find?_filter_comm]
  by_cases hk : k = k2 <;> simp [hk]

lemma peek_insertEntry (k k2 r s : Nat) (c : GpuCache) :
    peek k (insertEntry k2 r s c) = if k2 = k then some r else peek k c := by
  unfold peek insertEntry
  by_cases h : k2 = k
  · have hb : ((k2 : Nat) == k) = true := beq_iff_eq.mpr h
    simp [List.find?, hb, h]
  · have hb : ((k2 : Nat) == k) = false := beq_eq_false_iff_ne.mpr h
    simp [List.find?, hb, h]

lemma peek_evictLoop (k n fuel : Nat) (c : GpuCache) :
    peek k (evictLoop n fuel c) = none ∨ peek k (evictLoop n fuel c) = peek k c := by
  induction fuel generalizing c with
  | zero => right; rfl
  | succ fuel ih =>
    unfold evictLoop
    by_cases hfit : totalBytes c + n ≤ c.budget
    · right; rw [if_pos hfit]
    · rw [if_neg hfit]
      cases hv : findVictim c with
      | none => right; rfl
      | some v =>
        rcases ih (removeKey v c) with h | h
        · left; exact h
        · rw [h, peek_removeKey]
          by_cases hkv : k = v
          · left; rw [if_pos hkv]
          · right; rw [if_neg hkv]

lemma peek_evictUntilFit (k n : Nat) (c : GpuCache) :
    peek k (evictUntilFit n c) = none ∨ peek k (evictUntilFit n c) = peek k c :=
  peek_evictLoop k n c.entries.length c

lemma peek_none_applyOp (k : Nat) (op : CacheOp) (c : GpuCache)
    (hsp : sparesKey k op = true) (h : peek k c = none) :
    peek k (applyOp op c) = none := by
  cases op with
  | put k2 r2 s2 =>
    have hne : k2 ≠ k := by simpa [sparesKey] using hsp
    show peek k (putResource k2 r2 s2 c) = none
    unfold putResource
    by_cases hfit : totalBytes (evictUntilFit s2 (removeKey k2 c)) + s2
        ≤ (evictUntilFit s2 (removeKey k2 c)).budget
    · rw [if_pos hfit, peek_insertEntry, if_neg hne]
      rcases peek_evictUntilFit k s2 (removeKey k2 c) with h2 | h2
      · exact h2
      · rw [h2, peek_removeKey, if_neg (Ne.symm hne) ]
        exact h
    · rw [if_neg hfit]
      exact h
  | get k2 =>
    show peek k (resourceForKey k2 c).2 = none
    unfold resourceForKey
    cases hp : peek k2 c
    · exact h
    · show peek k (touchKey k2 c) = none
      rw [peek_touchKey]
      exact h
  | remove k2 =>
    show peek k (removeKey k2 c) = none
    rw [peek_removeKey]
    by_cases hk : k = k2
    · rw [if_pos hk]
    · rw [if_neg hk]; exact h
  | clearOp => simp [sparesKey] at hsp
  | frameEnd => exact h

lemma peek_some_applyOp (k r : Nat) (op : CacheOp) (c : GpuCache)
    (hsp : sparesKey k op = true) (h : peek k c = some r)
    (hne : peek k (applyOp op c) ≠ none) :
    peek k (applyOp op c) = some r := by
  cases op with
  | put k2 r2 s2 =>
    have hk2 : k2 ≠ k := by simpa [sparesKey] using hsp
    show peek k (putResource k2 r2 s2 c) = some r
    have hne2 : peek k (putResource k2 r2 s2 c) ≠ none := hne
    unfold putResource at hne2 ⊢
    by_cases hfit : totalBytes (evictUntilFit s2 (removeKey k2 c)) + s2
        ≤ (evictUntilFit s2 (removeKey k2 c)).budget
    · rw [if_pos hfit, peek_insertEntry, if_neg hk2] at hne2 ⊢
      rcases peek_evictUntilFit k s2 (removeKey k2 c) with h2 | h2
      · exact absurd h2 hne2
      · rw [h2, peek_removeKey, if_neg (Ne.symm hk2)]
        exact h
    · rw [if_neg hfit]
      exact h
  | get k2 =>
    show peek k (resourceForKey k2 c).2 = some r
    unfold resourceForKey
    cases hp : peek k2 c
    · exact h
    · show peek k (touchKey k2 c) = some r
      rw [peek_touchKey]
      exact h
  | remove k2 =>
    have hk2 : k2 ≠ k := by simpa [sparesKey] using hsp
    show peek k (removeKey k2 c) = some r
    rw [peek_removeKey, if_neg (Ne.symm hk2)]
    exact h
  | clearOp => simp [sparesKey] at hsp
  | frameEnd => exact h

lemma peek_none_runOps (k : Nat) (ops : List CacheOp) (c : GpuCache)
    (hsp : ∀ op ∈ ops, sparesKey k op = true) (h : peek k c = none) :
    peek k (runOps ops c) = none := by
  induction ops generalizing c with
  | nil => exact h
  | cons op ops ih =>
    exact ih (applyOp op c) (fun o ho => hsp o (List.mem_cons_of_mem _ ho))
      (peek_none_applyOp k op c (hsp op (List.mem_cons_self _ _)) h)

lemma peek_some_runOps (k r : Nat) (ops : List CacheOp) (c : GpuCache)
    (hsp : ∀ op ∈ ops, sparesKey k op = true) (h : peek k c = some r)
    (hne : peek k (runOps ops c) ≠ none) :
    peek k (runOps ops c) = some r := by
  induction ops generalizing c with
  | nil => exact h
  | cons op ops ih =>
    have htail : ∀ o ∈ ops, sparesKey k o = true :=
      fun o ho => hsp o (List.mem_cons_of_mem _ ho)
    cases hmid : peek k (applyOp op c) with
    | none =>
      have : peek k (runOps ops (applyOp op c)) = none :=
        peek_none_runOps k ops (applyOp op c) htail hmid
      exact absurd this hne
    | some r2 =>
      have hr : peek k (applyOp op c) = some r :=
        peek_some_applyOp k r op c (hsp op (List.mem_cons_self _ _)) h
          (by rw [hmid]; exact Option.some_ne_none r2)
      exact ih (applyOp op c) htail hr hne

/-- Claim C5: after a successful `putResource(k, r, s)`, `resourceForKey(k)`
returns a handle equal to `r`, in the same frame and in every subsequent
frame, as long as no operation removes, clears, or overwrites the key and
the key has not been evicted (the lookup is still resident). -/
theorem c5_put_roundtrip (k r s : Nat) (c : GpuCache) :
    (putOk k s c → peek k (putResource k r s c) = some r)
    ∧ (∀ ops c2, (∀ op ∈ ops, sparesKey k op = true) → peek k c2 = some r →
        peek k (runOps ops c2) ≠ none → peek k (runOps ops c2) = some r) := by
  constructor
  · intro hok
    unfold putOk at hok
    unfold putResource
    rw [if_pos hok, peek_insertEntry, if_pos rfl]
  · intro ops c2 hsp h hne
    exact peek_some_runOps k r ops c2 hsp h hne

/-- Witness for C5: a concrete put followed by a touch, a frame boundary,
and an unrelated insertion, with the key still resident throughout. -/
theorem c5_put_roundtrip_witness :
    peek 1 (putResource 1 5 3 (GpuCache.empty 10)) = some 5
    ∧ peek 1 (runOps [.get 1, .frameEnd, .put 2 7 3]
        (putResource 1 5 3 (GpuCache.empty 10))) = some 5 :=
  ⟨(c5_put_roundtrip 1 5 3 (GpuCache.empty 10)).1 (by decide),
   (c5_put_roundtrip 1 5 3 (GpuCache.empty 10)).2 [.get 1, .frameEnd, .put 2 7 3]
     (putResource 1 5 3 (GpuCache.empty 10)) (by decide) (by decide) (by decide)⟩

/-! Lemmas about the eviction victim. -/

lemma minByTouch_mem (e : Nat × CacheEntry) (xs : List (Nat × CacheEntry)) :
    minByTouch e xs ∈ e :: xs := by
  induction xs generalizing e with
  | nil => simp [minByTouch]
  | cons x xs ih =>
    unfold minByTouch
    have h := ih (if x.2.lastTouched < e.2.lastTouched then x else e)
    rcases List.mem_cons.mp h with h1 | h2
    · rw [h1]
      by_cases hc : x.2.lastTouched < e.2.lastTouched
      · simp [hc]
      · simp [hc]
    · exact List.mem_cons_of_mem _ (List.mem_cons_of_mem _ h2)

lemma minByTouch_le (e : Nat × CacheEntry) (xs : List (Nat × CacheEntry)) :
    ∀ y ∈ e :: xs, (minByTouch e xs).2.lastTouched ≤ y.2.lastTouched := by
  induction xs generalizing e with
  | nil =>
    intro y hy
    rcases List.mem_cons.mp hy with h1 | h2
    · rw [h1]; exact Nat.le_refl _
    · cases h2
  | cons x xs ih =>
    intro y hy
    unfold minByTouch
    have hmin := ih (if x.2.lastTouched < e.2.lastTouched then x else e)
      (if x.2.lastTouched < e.2.lastTouched then x else e) (List.mem_cons_self _ _)
    have hite_e : (if x.2.lastTouched < e.2.lastTouched then x else e).2.lastTouched
        ≤ e.2.lastTouched := by
      split_ifs with hc <;> omega
    have hite_x : (if x.2.lastTouched < e.2.lastTouched then x else e).2.lastTouched
        ≤ x.2.lastTouched := by
      split_ifs with hc <;> omega
    rcases List.mem_cons.mp hy with h1 | hy2
    · rw [h1]; exact hmin.trans hite_e
    rcases List.mem_cons.mp hy2 with h1 | hy3
    · rw [h1]; exact hmin.trans hite_x
    · exact ih _ y (List.mem_cons_of_mem _ hy3)

lemma findVictim_policy (c : GpuCache) (k2 : Nat) (hv : findVictim c = some k2) :
    ∃ e : CacheEntry, (k2, e) ∈ c.entries ∧ e.touchedFrame ≠ c.frame
      ∧ ∀ x ∈ c.entries, x.2.touchedFrame ≠ c.frame →
          e.lastTouched ≤ x.2.lastTouched := by
  unfold findVictim at hv
  cases hf : c.entries.filter (evictableEntry c) with
  | nil => rw [hf] at hv; cases hv
  | cons e0 es =>
    rw [hf] at hv
    have hkey : (minByTouch e0 es).1 = k2 := by
      injection hv
    have hmem : minByTouch e0 es ∈ e0 :: es := minByTouch_mem e0 es
    rw [← hf] at hmem
    rcases List.mem_filter.mp hmem with ⟨hmem2, hev⟩
    refine ⟨(minByTouch e0 es).2, ?_, ?_, ?_⟩
    · rw [← hkey]
      simpa using hmem2
    · have := bne_iff_ne.mp hev
      exact this
    · intro x hx hxf
      have hxfil : x ∈ c.entries.filter (evictableEntry c) :=
        List.mem_filter.mpr ⟨hx, bne_iff_ne.mpr hxf⟩
      rw [hf] at hxfil
      exact minByTouch_le e0 es x hxfil

/-- Claim C3: `putResource` evicts in least-recently-touched-first order,
skipping every entry touched in the current frame, until the budget is
satisfied; and in the concrete scenario — budget fitting two unit entries,
insert A, B, C, then (in the next frame) touch A and insert D — entry B is
evicted while A and D remain resident. -/
theorem c3_eviction_order :
    (∀ (c : GpuCache) (k2 : Nat), findVictim c = some k2 →
      ∃ e : CacheEntry, (k2, e) ∈ c.entries ∧ e.touchedFrame ≠ c.frame
        ∧ ∀ x ∈ c.entries, x.2.touchedFrame ≠ c.frame →
            e.lastTouched ≤ x.2.lastTouched)
    ∧ peek 2 c3trace = none ∧ peek 1 c3trace = some 101
    ∧ peek 4 c3trace = some 104 :=
  ⟨findVictim_policy, by decide, by decide, by decide⟩

/-- Witness for C3: in the concrete pre-insertion cache, the victim is
entry 2, which is evictable and least-recently touched. -/
theorem c3_eviction_order_witness :
    ∃ e : CacheEntry, (2, e) ∈ cacheW.entries ∧ e.touchedFrame ≠ cacheW.frame
      ∧ ∀ x ∈ cacheW.entries, x.2.touchedFrame ≠ cacheW.frame →
          e.lastTouched ≤ x.2.lastTouched :=
  c3_eviction_order.1 cacheW 2 (by decide)

/-! Lemmas about the pipeline association tables. -/

lemma find?_filter_ne_dec {α β : Type} [DecidableEq α] (k k2 : α) (l : List (α × β)) :
    (l.filter (fun e => decide (e.1 ≠ k2))).find? (fun e => decide (e.1 = k))
      = if k = k2 then none else l.find? (fun e => decide (e.1 = k)) := by
  induction l with
  | nil => by_cases h : k = k2 <;> simp [h]
  | cons a l ih =>
    by_cases ha2 : a.1 = k2
    · rw [List.filter_cons_of_neg (by simp [ha2]), ih]
      by_cases hk : k = k2
      · rw [if_pos hk, if_pos hk]
      · have hak : ¬ a.1 = k := fun hcontra => hk (by rw [← hcontra]; exact ha2)
        rw [if_neg hk, if_neg hk, List.find?_cons_of_neg _ (by simp [hak])]
    · rw [List.filter_cons_of_pos (by simp [ha2])]
      by_cases hak : a.1 = k
      · have hk : ¬ k = k2 := fun hkk => ha2 (by rw [hak, hkk])
        rw [List.find?_cons_of_pos _ (by simp [hak]), if_neg hk,
          List.find?_cons_of_pos _ (by simp [hak])]
      · rw [List.find?_cons_of_neg _ (by simp [hak]), ih]
        by_cases hk : k = k2
        · rw [if_pos hk, if_pos hk]
        · rw [if_neg hk, if_neg hk, List.find?_cons_of_neg _ (by simp [hak])]

lemma tabGet_set (k k2 : PipeKey) (v : ReqState) (t : List (PipeKey × ReqState)) :
    tabGet k (tabSet k2 v t) = if k = k2 then some v else tabGet k t := by
  unfold tabGet tabSet
  by_cases h : k = k2
  · simp [List.find?, h]
  · have hne : ¬ k2 = k := fun hh => h hh.symm
    simp only [List.find?, decide_eq_true_eq, hne, if_neg]
    rw [find?_filter_ne_dec k k2]
    simp [h, hne]

lemma tabGet_del (k k2 : PipeKey) (t : List (PipeKey × ReqState)) :
    tabGet k (tabDel k2 t) = if k = k2 then none else tabGet k t := by
  unfold tabGet tabDel
  rw [find?_filter_ne_dec k k2]
  by_cases h : k = k2 <;> simp [h]

lemma actGet_set (k k2 : PipeKey) (n : Nat) (a : List (PipeKey × Nat)) :
    actGet k (actSet k2 n a) = if k = k2 then n else actGet k a := by
  unfold actGet actSet
  by_cases h : k = k2
  · simp [List.find?, h]
  · have hne : ¬ k2 = k := fun hh => h hh.symm
    simp only [List.find?, decide_eq_true_eq, hne, if_neg]
    rw [find?_filter_ne_dec k k2]
    simp [h, hne]

lemma stepEvent_inv (e : PipeEvent) (st : PipeState) (h : PipeInv st) :
    PipeInv (stepEvent e st) := by
  cases e with
  | request k2 =>
    show PipeInv (requestTile k2 st).1
    unfold requestTile
    cases ht : tabGet k2 st.table with
    | none =>
      intro k
      show actGet k st.active = _
      rw [tabGet_set]
      by_cases hk : k = k2
      · rw [if_pos hk, h k, hk, ht]
        simp
      · rw [if_neg hk]
        exact h k
    | some s =>
      cases s with
      | queued => exact h
      | inFlight => exact h
      | reqDone =>
        intro k
        show actGet k st.active = _
        rw [tabGet_set]
        by_cases hk : k = k2
        · rw [if_pos hk, h k, hk, ht]
          simp
        · rw [if_neg hk]
          exact h k
      | reqFailed =>
        intro k
        show actGet k st.active = _
        rw [tabGet_set]
        by_cases hk : k = k2
        · rw [if_pos hk, h k, hk, ht]
          simp
        · rw [if_neg hk]
          exact h k
  | startFetch k2 =>
    simp only [stepEvent]
    cases ht : tabGet k2 st.table with
    | none => exact h
    | some s =>
      cases s with
      | queued =>
        intro k
        show actGet k (actSet k2 (actGet k2 st.active + 1) st.active) = _
        rw [tabGet_set, actGet_set]
        by_cases hk : k = k2
        · rw [if_pos hk, if_pos hk, h k2, ht]
          simp
        · rw [if_neg hk, if_neg hk]
          exact h k
      | inFlight => exact h
      | reqDone => exact h
      | reqFailed => exact h
  | fetchDone k2 =>
    simp only [stepEvent]
    cases ht : tabGet k2 st.table with
    | none => exact h
    | some s =>
      cases s with
      | queued => exact h
      | inFlight =>
        intro k
        show actGet k (actSet k2 (actGet k2 st.active - 1) st.active) = _
        rw [tabGet_set, actGet_set]
        by_cases hk : k = k2
        · rw [if_pos hk, if_pos hk, h k2, ht]
          simp
        · rw [if_neg hk, if_neg hk]
          exact h k
      | reqDone => exact h
      | reqFailed => exact h
  | fetchFailed k2 =>
    simp only [stepEvent]
    cases ht : tabGet k2 st.table with
    | none => exact h
    | some s =>
      cases s with
      | queued => exact h
      | inFlight =>
        intro k
        show actGet k (actSet k2 (actGet k2 st.active - 1) st.active) = _
        rw [tabGet_set, actGet_set]
        by_cases hk : k = k2
        · rw [if_pos hk, if_pos hk, h k2, ht]
          simp
        · rw [if_neg hk, if_neg hk]
          exact h k
      | reqDone => exact h
      | reqFailed => exact h
  | consume k2 =>
    simp only [stepEvent]
    cases ht : tabGet k2 st.table with
    | none => exact h
    | some s =>
      cases s with
      | queued => exact h
      | inFlight => exact h
      | reqDone =>
        intro k
        show actGet k st.active = _
        rw [tabGet_del]
        by_cases hk : k = k2
        · rw [if_pos hk, h k, hk, ht]
          simp
        · rw [if_neg hk]
          exact h k
      | reqFailed =>
        intro k
        show actGet k st.active = _
        rw [tabGet_del]
        by_cases hk : k = k2
        · rw [if_pos hk, h k, hk, ht]
          simp
        · rw [if_neg hk]
          exact h k

lemma foldl_step_inv (es : List PipeEvent) (st : PipeState) (h : PipeInv st) :
    PipeInv (es.foldl (fun st e => stepEvent e st) st) := by
  induction es generalizing st with
  | nil => exact h
  | cons e es ih => exact ih (stepEvent e st) (stepEvent_inv e st h)

lemma runEvents_inv (es : List PipeEvent) : PipeInv (runEvents es) := by
  unfold runEvents
  refine foldl_step_inv es initPipe ?_
  intro k
  rfl

/-- Claim C1: for every key, if a PendingRequest is QUEUED or IN_FLIGHT,
`requestTile` returns the existing one and changes nothing (so no new fetch
starts); and along every interleaving of atomic pipeline events, each key
has at most one underlying fetch in flight. -/
theorem c1_request_dedup (es : List PipeEvent) (k : PipeKey) (st : PipeState)
    (s : ReqState) :
    actGet k (runEvents es).active ≤ 1
    ∧ (tabGet k st.table = some s → (s = .queued ∨ s = .inFlight) →
        requestTile k st = (st, s)) := by
  constructor
  · rw [runEvents_inv es k]
    by_cases h : tabGet k (runEvents es).table = some .inFlight
    · rw [if_pos h]
    · rw [if_neg h]
      exact Nat.zero_le 1
  · intro ht hs
    unfold requestTile
    rw [ht]
    rcases hs with h | h <;> rw [h]

/-- Witness for C1: a request, its fetch start, and a duplicate request for
the same key leave exactly one fetch in flight, and a `requestTile` on a
queued key returns the existing request unchanged. -/
theorem c1_request_dedup_witness :
    actGet (0, ⟨0, 0, 0⟩)
      (runEvents [.request (0, ⟨0, 0, 0⟩), .startFetch (0, ⟨0, 0, 0⟩),
        .request (0, ⟨0, 0, 0⟩)]).active ≤ 1
    ∧ requestTile (0, ⟨0, 0, 0⟩) pipeW = (pipeW, .queued) :=
  ⟨(c1_request_dedup [.request (0, ⟨0, 0, 0⟩), .startFetch (0, ⟨0, 0, 0⟩),
      .request (0, ⟨0, 0, 0⟩)] (0, ⟨0, 0, 0⟩) pipeW .queued).1,
   (c1_request_dedup [] (0, ⟨0, 0, 0⟩) pipeW .queued).2 (by decide) (Or.inl rfl)⟩

/-- Claim C7: `keyFor` is pure and deterministic, injective on addresses
within one source, and keys of distinct sources never collide because every
key carries the source discriminator. -/
theorem c7_keyFor_identity (s t : TileSource) (a b : TileAddr) :
    keyFor s a = keyFor s a
    ∧ (a ≠ b → keyFor s a ≠ keyFor s b)
    ∧ (s.srcId ≠ t.srcId → keyFor s a ≠ keyFor t b) := by
  refine ⟨rfl, ?_, ?_⟩
  · intro hab h
    unfold keyFor at h
    injection h with h1 h2 h3 h4
    apply hab
    cases a
    cases b
    simp_all
  · intro hst h
    unfold keyFor at h
    injection h with h1 h2 h3 h4
    exact hst h1

/-- Witness for C7: keys of two distinct sources at the same address
differ. -/
theorem c7_keyFor_identity_witness :
    keyFor ⟨0⟩ ⟨1, 2, 3⟩ ≠ keyFor ⟨1⟩ ⟨1, 2, 3⟩ :=
  (c7_keyFor_identity ⟨0⟩ ⟨1⟩ ⟨1, 2, 3⟩ ⟨1, 2, 3⟩).2.2 (by decide)

/-! Lemmas about the ColladaScene texture loop. -/

lemma loadEntities_flag (cache : List Nat) (es : List ColladaEntity) (pt : Bool) :
    (loadEntities cache es pt).2 = (pt && !(es.any (entityMissing cache))) := by
  induction es generalizing pt with
  | nil => simp [loadEntities]
  | cons e es ih =>
    cases hte : e.texture with
    | none =>
      simp only [loadEntities, hte, List.any_cons, entityMissing, ih]
      simp
    | some t =>
      by_cases hl : e.textureLoaded
      · simp only [loadEntities, hte, hl, if_pos, List.any_cons, ih]
        simp [entityMissing, hte, hl]
      · by_cases hc : t ∈ cache
        · simp only [loadEntities, hte, hl, List.any_cons, ih]
          simp [entityMissing, hte, hl, hc]
        · simp only [loadEntities, hte, hl, List.any_cons]
          simp [entityMissing, hte, hl, hc]

/-- Claim C4, corrected: nothing in the texture path throws into the frame
loop (the embedded functions are total), but fallback is all-or-nothing per
scene, not per item: `renderOrdered` draws nothing while any entity's
texture is wanted, unloaded and not resident, and draws the scene when no
entity's texture is missing (`allTexturesLoaded` latches). -/
theorem c4_scene_reveal (cache : List Nat) (s : ColladaTexState) :
    (s.allTexturesLoaded = true → (renderOrdered cache s).2 = true)
    ∧ (s.allTexturesLoaded = false →
        (∃ e ∈ s.entities, entityMissing cache e = true) →
        (renderOrdered cache s).2 = false)
    ∧ ((∀ e ∈ s.entities, entityMissing cache e = false) →
        (renderOrdered cache s).2 = true) := by
  refine ⟨?_, ?_, ?_⟩
  · intro h
    simp [renderOrdered, loadTextures, h]
  · intro h0 hex
    have hany : s.entities.any (entityMissing cache) = true :=
      List.any_eq_true.mpr (by
        rcases hex with ⟨e, he, hm⟩
        exact ⟨e, he, hm⟩)
    simp [renderOrdered, loadTextures, h0, loadEntities_flag, hany]
  · intro hall
    have hany : s.entities.any (entityMissing cache) = false := by
      rw [List.any_eq_false]
      intro e he
      simp [hall e he]
    by_cases h0 : s.allTexturesLoaded
    · simp [renderOrdered, loadTextures, h0]
    · simp [renderOrdered, loadTextures, h0, loadEntities_flag, hany]

/-- Counterexample to C4 as stated: with texture 7 resident, texture 5
absent and one untextured entity, the scene draws nothing at all — the
available items are not rendered independently of the missing one. -/
theorem c4_scene_reveal_counterexample :
    (renderOrdered [7] sceneW).2 = false
    ∧ (sceneW.entities.get? 1 = some ⟨some 7, false⟩
        ∧ (7 : Nat) ∈ [7] ∧ sceneW.entities.get? 2 = some ⟨none, false⟩) := by
  refine ⟨?_, by decide⟩
  decide

/-- Witness for C4 (amended): one missing texture suppresses the whole
scene; with both textures resident the scene draws. -/
theorem c4_scene_reveal_witness :
    (renderOrdered [7] sceneW).2 = false
    ∧ (renderOrdered [5, 7] sceneW).2 = true :=
  ⟨(c4_scene_reveal [7] sceneW).2.1 rfl
     ⟨⟨some 5, false⟩, by decide, by decide⟩,
   (c4_scene_reveal [5, 7] sceneW).2.2 (by decide)⟩

/-! Lemmas about the tile pyramid. -/

lemma chooseLevelGo_le (p : TilePyramid) (R : ℚ) (fuel : Nat) :
    ∀ l, chooseLevelGo p R l fuel ≤ l + fuel := by
  induction fuel with
  | zero => intro l; simp [chooseLevelGo]
  | succ fuel ih =>
    intro l
    unfold chooseLevelGo
    by_cases h : levelResolution p l ≤ R
    · rw [if_pos h]; omega
    · rw [if_neg h]
      have := ih (l + 1)
      omega

lemma chooseLevelGo_min (p : TilePyramid) (R : ℚ) (fuel : Nat) :
    ∀ l j, l ≤ j → j < chooseLevelGo p R l fuel → ¬ levelResolution p j ≤ R := by
  induction fuel with
  | zero =>
    intro l j hlj hj
    unfold chooseLevelGo at hj
    omega
  | succ fuel ih =>
    intro l j hlj hj
    unfold chooseLevelGo at hj
    by_cases h : levelResolution p l ≤ R
    · rw [if_pos h] at hj; omega
    · rw [if_neg h] at hj
      by_cases hjl : j = l
      · rw [hjl]; exact h
      · exact ih (l + 1) j (by omega) hj

lemma chooseLevelGo_hits (p : TilePyramid) (R : ℚ) (fuel : Nat) :
    ∀ l j, l ≤ j → j ≤ l + fuel → levelResolution p j ≤ R →
      levelResolution p (chooseLevelGo p R l fuel) ≤ R := by
  induction fuel with
  | zero =>
    intro l j hlj hju hres
    unfold chooseLevelGo
    have hjl : j = l := by omega
    rw [← hjl]
    exact hres
  | succ fuel ih =>
    intro l j hlj hju hres
    unfold chooseLevelGo
    by_cases h : levelResolution p l ≤ R
    · rw [if_pos h]; exact h
    · rw [if_neg h]
      have hjl : ¬ j = l := fun hh => h (by rw [← hh]; exact hres)
      exact ih (l + 1) j (by omega) (by omega) hres

lemma rowCount_pos (p : TilePyramid) (l : Nat) (h : 0 < p.rows0) :
    0 < rowCount p l :=
  Nat.mul_pos h (pow_pos (by norm_num) l)

lemma colCount_pos (p : TilePyramid) (l : Nat) (h : 0 < p.cols0) :
    0 < colCount p l :=
  Nat.mul_pos h (pow_pos (by norm_num) l)

lemma deltaLat_pos (p : TilePyramid) (l : Nat)
    (hlat : p.extent.minLat < p.extent.maxLat) (hr : 0 < p.rows0) :
    0 < deltaLat p l := by
  unfold deltaLat
  apply div_pos (sub_pos.mpr hlat)
  exact_mod_cast rowCount_pos p l hr

lemma deltaLon_pos (p : TilePyramid) (l : Nat)
    (hlon : p.extent.minLon < p.extent.maxLon) (hc : 0 < p.cols0) :
    0 < deltaLon p l := by
  unfold deltaLon
  apply div_pos (sub_pos.mpr hlon)
  exact_mod_cast colCount_pos p l hc

lemma rowSpan (p : TilePyramid) (l : Nat) (hr : 0 < p.rows0) :
    p.extent.minLat + ((rowCount p l : Nat) : ℚ) * deltaLat p l
      = p.extent.maxLat := by
  unfold deltaLat
  have hne : ((rowCount p l : Nat) : ℚ) ≠ 0 := by
    exact_mod_cast (rowCount_pos p l hr).ne'
  rw [mul_comm, div_mul_cancel₀ _ hne]
  ring

lemma colSpan (p : TilePyramid) (l : Nat) (hc : 0 < p.cols0) :
    p.extent.minLon + ((colCount p l : Nat) : ℚ) * deltaLon p l
      = p.extent.maxLon := by
  unfold deltaLon
  have hne : ((colCount p l : Nat) : ℚ) ≠ 0 := by
    exact_mod_cast (colCount_pos p l hc).ne'
  rw [mul_comm, div_mul_cancel₀ _ hne]
  ring

lemma idx1_mono (a d : ℚ) (count : Nat) (x y : ℚ) (hd : 0 < d) (hxy : x ≤ y) :
    idx1 a d count x ≤ idx1 a d count y := by
  unfold idx1 clampIndex
  have hfl : ⌊(x - a) / d⌋ ≤ ⌊(y - a) / d⌋ :=
    Int.floor_le_floor ((div_le_div_iff_of_pos_right hd).mpr (by linarith))
  omega

lemma idx1_contains (a d : ℚ) (count : Nat) (x : ℚ) (hd : 0 < d)
    (hc : 0 < count) (hax : a ≤ x) (hxb : x ≤ a + (count : ℚ) * d) :
    a + ((idx1 a d count x : Nat) : ℚ) * d ≤ x
      ∧ x ≤ a + (((idx1 a d count x : Nat) : ℚ) + 1) * d := by
  have ht0 : 0 ≤ (x - a) / d := div_nonneg (by linarith) hd.le
  have htc : (x - a) / d ≤ (count : ℚ) := by
    rw [div_le_iff₀ hd]
    linarith
  have hfl0 : 0 ≤ ⌊(x - a) / d⌋ := Int.floor_nonneg.mpr ht0
  have hflc : ⌊(x - a) / d⌋ ≤ (count : ℤ) := by
    have h1 := Int.floor_le_floor htc
    rwa [Int.floor_natCast] at h1
  have htd : (x - a) / d * d = x - a := div_mul_cancel₀ _ hd.ne'
  have hidx : ((idx1 a d count x : Nat) : ℤ)
      = min ((count : ℤ) - 1) ⌊(x - a) / d⌋ := by
    unfold idx1 clampIndex
    rw [max_eq_right hfl0]
    exact Int.toNat_of_nonneg (by omega)
  by_cases hcase : ⌊(x - a) / d⌋ ≤ (count : ℤ) - 1
  · have hieq : ((idx1 a d count x : Nat) : ℤ) = ⌊(x - a) / d⌋ := by
      rw [hidx]; omega
    have hiq : ((idx1 a d count x : Nat) : ℚ) = ((⌊(x - a) / d⌋ : ℤ) : ℚ) := by
      exact_mod_cast hieq
    constructor
    · have h1 : ((⌊(x - a) / d⌋ : ℤ) : ℚ) ≤ (x - a) / d := Int.floor_le _
      have h2 : ((⌊(x - a) / d⌋ : ℤ) : ℚ) * d ≤ (x - a) / d * d :=
        mul_le_mul_of_nonneg_right h1 hd.le
      rw [htd] at h2
      rw [hiq]
      linarith
    · have h1 : (x - a) / d < ((⌊(x - a) / d⌋ : ℤ) : ℚ) + 1 :=
        Int.lt_floor_add_one _
      have h2 : (x - a) / d * d < (((⌊(x - a) / d⌋ : ℤ) : ℚ) + 1) * d :=
        mul_lt_mul_of_pos_right h1 hd
      rw [htd] at h2
      rw [hiq]
      linarith
  · have hfc : ⌊(x - a) / d⌋ = (count : ℤ) := by omega
    have hge : (count : ℚ) ≤ (x - a) / d := by
      have h1 : ((count : ℤ) : ℚ) ≤ (x - a) / d := by
        rw [← hfc]; exact Int.floor_le _
      exact_mod_cast h1
    have hteq : (x - a) / d = (count : ℚ) := le_antisymm htc hge
    have hxa : x - a = (count : ℚ) * d := by
      rw [← htd, hteq]
    have hieq : ((idx1 a d count x : Nat) : ℤ) = (count : ℤ) - 1 := by
      rw [hidx]; omega
    have hiq : ((idx1 a d count x : Nat) : ℚ) = (count : ℚ) - 1 := by
      have hcast : (((count : ℤ) - 1 : ℤ) : ℚ) = (count : ℚ) - 1 := by
        push_cast
        ring
      rw [← hcast]
      exact_mod_cast hieq
    constructor
    · rw [hiq]
      have hexp : ((count : ℚ) - 1) * d = (count : ℚ) * d - d := by ring
      linarith
    · rw [hiq]
      have hexp : ((count : ℚ) - 1 + 1) * d = (count : ℚ) * d := by ring
      linarith

lemma tilesBlock_mem (l r0 r1 c0 c1 rp cp : Nat) (h0 : r0 ≤ rp) (h1 : rp ≤ r1)
    (h2 : c0 ≤ cp) (h3 : cp ≤ c1) : (l, rp, cp) ∈ tilesBlock l r0 r1 c0 c1 := by
  unfold tilesBlock
  apply List.mem_flatten.mpr
  refine ⟨(List.range (c1 + 1 - c0)).map (fun dc => (l, r0 + (rp - r0), c0 + dc)),
    List.mem_map.mpr ⟨rp - r0, List.mem_range.mpr (by omega), rfl⟩, ?_⟩
  apply List.mem_map.mpr
  refine ⟨cp - c0, List.mem_range.mpr (by omega), ?_⟩
  have e1 : r0 + (rp - r0) = rp := by omega
  have e2 : c0 + (cp - c0) = cp := by omega
  rw [e1, e2]

lemma tilesBlock_level (l r0 r1 c0 c1 : Nat) :
    ∀ t ∈ tilesBlock l r0 r1 c0 c1, t.1 = l := by
  intro t ht
  unfold tilesBlock at ht
  rcases List.mem_flatten.mp ht with ⟨L, hL, htL⟩
  rcases List.mem_map.mp hL with ⟨dr, _, rfl⟩
  rcases List.mem_map.mp htL with ⟨dc, _, rfl⟩
  rfl

/-- Claim C6, amended: `tilesForSector(S, R)` returns addresses drawn from
the coarsest level whose per-tile resolution is ≤ R (when one exists), and
the union of the returned tiles' sectors covers the intersection of S with
the pyramid's configured extent (sectors exceeding the extent clip to it). -/
theorem c6_tiles_cover (p : TilePyramid) (s : Sector) (R : ℚ)
    (hwf : wellFormed p) (hex : ∃ j, j < p.numLevels ∧ levelResolution p j ≤ R) :
    (∀ t ∈ tilesForSector p s R, t.1 = chooseLevel p R)
    ∧ levelResolution p (chooseLevel p R) ≤ R
    ∧ (∀ j < chooseLevel p R, ¬ levelResolution p j ≤ R)
    ∧ chooseLevel p R < p.numLevels
    ∧ ∀ lat lon, inSector s lat lon → inSector p.extent lat lon →
        ∃ t ∈ tilesForSector p s R, inSector (tileSector p t) lat lon := by
  obtain ⟨hlat, hlon, hr, hc, hts, hnl⟩ := hwf
  obtain ⟨j, hjn, hjres⟩ := hex
  refine ⟨?_, ?_, ?_, ?_, ?_⟩
  · intro t ht
    exact tilesBlock_level _ _ _ _ _ t ht
  · exact chooseLevelGo_hits p R (p.numLevels - 1) 0 j (Nat.zero_le j)
      (by omega) hjres
  · intro j2 hj2
    exact chooseLevelGo_min p R (p.numLevels - 1) 0 j2 (Nat.zero_le _) hj2
  · have := chooseLevelGo_le p R (p.numLevels - 1) 0
    unfold chooseLevel
    omega
  · intro lat lon hs hext
    obtain ⟨hs1, hs2, hs3, hs4⟩ := hs
    obtain ⟨he1, he2, he3, he4⟩ := hext
    have hdlat : 0 < deltaLat p (chooseLevel p R) := deltaLat_pos p _ hlat hr
    have hdlon : 0 < deltaLon p (chooseLevel p R) := deltaLon_pos p _ hlon hc
    have hrcp : 0 < rowCount p (chooseLevel p R) := rowCount_pos p _ hr
    have hccp : 0 < colCount p (chooseLevel p R) := colCount_pos p _ hc
    have hcl1 : (clipSector p.extent s).minLat ≤ lat := max_le hs1 he1
    have hcl2 : lat ≤ (clipSector p.extent s).maxLat := le_min hs2 he2
    have hcl3 : (clipSector p.extent s).minLon ≤ lon := max_le hs3 he3
    have hcl4 : lon ≤ (clipSector p.extent s).maxLon := le_min hs4 he4
    have hxb_lat : lat ≤ p.extent.minLat
        + ((rowCount p (chooseLevel p R) : Nat) : ℚ) * deltaLat p (chooseLevel p R) := by
      rw [rowSpan p _ hr]
      exact he2
    have hxb_lon : lon ≤ p.extent.minLon
        + ((colCount p (chooseLevel p R) : Nat) : ℚ) * deltaLon p (chooseLevel p R) := by
      rw [colSpan p _ hc]
      exact he4
    have hrow := idx1_contains p.extent.minLat (deltaLat p (chooseLevel p R))
      (rowCount p (chooseLevel p R)) lat hdlat hrcp he1 hxb_lat
    have hcol := idx1_contains p.extent.minLon (deltaLon p (chooseLevel p R))
      (colCount p (chooseLevel p R)) lon hdlon hccp he3 hxb_lon
    have hm : (chooseLevel p R, rowOf p (chooseLevel p R) lat,
        colOf p (chooseLevel p R) lon) ∈ tilesForSector p s R := by
      unfold tilesForSector
      apply tilesBlock_mem
      · exact idx1_mono _ _ _ _ _ hdlat hcl1
      · exact idx1_mono _ _ _ _ _ hdlat hcl2
      · exact idx1_mono _ _ _ _ _ hdlon hcl3
      · exact idx1_mono _ _ _ _ _ hdlon hcl4
    exact ⟨(chooseLevel p R, rowOf p (chooseLevel p R) lat,
        colOf p (chooseLevel p R) lon), hm, hrow.1, hrow.2, hcol.1, hcol.2⟩

/-- Counterexample to C6 as stated: for a query sector reaching outside the
pyramid extent the returned tiles do not cover the whole sector — the point
(−5, 5) lies in the sector but in no returned tile. -/
theorem c6_tiles_cover_counterexample :
    inSector sector1 (-5) 5
    ∧ tilesForSector pyramid1 sector1 90 = [(0, 0, 0)]
    ∧ ¬ inSector (tileSector pyramid1 (0, 0, 0)) (-5) 5 := by
  have hd : deltaLat pyramid1 0 = 90 := by
    norm_num [deltaLat, rowCount, pyramid1]
  have hdlon : deltaLon pyramid1 0 = 90 := by
    norm_num [deltaLon, colCount, pyramid1]
  have hf10 : ⌊((10 : ℚ)) / 90⌋ = 0 := by
    rw [Int.floor_eq_zero_iff, Set.mem_Ico]
    constructor <;> norm_num
  have hrow_a : rowOf pyramid1 0 0 = 0 := by
    unfold rowOf idx1 clampIndex
    rw [hd]
    norm_num [rowCount, pyramid1]
  have hrow_b : rowOf pyramid1 0 10 = 0 := by
    unfold rowOf idx1 clampIndex
    rw [hd]
    have h1 : ((10 : ℚ) - pyramid1.extent.minLat) / 90 = 10 / 90 := by
      norm_num [pyramid1]
    rw [h1, hf10]
    norm_num [rowCount, pyramid1]
  have hcol_a : colOf pyramid1 0 0 = 0 := by
    unfold colOf idx1 clampIndex
    rw [hdlon]
    norm_num [colCount, pyramid1]
  have hcol_b : colOf pyramid1 0 10 = 0 := by
    unfold colOf idx1 clampIndex
    rw [hdlon]
    have h1 : ((10 : ℚ) - pyramid1.extent.minLon) / 90 = 10 / 90 := by
      norm_num [pyramid1]
    rw [h1, hf10]
    norm_num [colCount, pyramid1]
  refine ⟨by decide, ?_, ?_⟩
  · unfold tilesForSector
    have hcl : chooseLevel pyramid1 90 = 0 := rfl
    rw [hcl]
    have hca : (clipSector pyramid1.extent sector1).minLat = 0 := by
      norm_num [clipSector, pyramid1, sector1, max_def]
    have hcb : (clipSector pyramid1.extent sector1).maxLat = 10 := by
      norm_num [clipSector, pyramid1, sector1, min_def]
    have hcc : (clipSector pyramid1.extent sector1).minLon = 0 := by
      norm_num [clipSector, pyramid1, sector1, max_def]
    have hcd : (clipSector pyramid1.extent sector1).maxLon = 10 := by
      norm_num [clipSector, pyramid1, sector1, min_def]
    rw [hca, hcb, hcc, hcd, hrow_a, hrow_b, hcol_a, hcol_b]
    decide
  · unfold inSector tileSector
    norm_num [hd, hdlon, pyramid1]

/-- Witness for C6 (amended) at a concrete in-extent query. -/
theorem c6_tiles_cover_witness :
    ∃ t ∈ tilesForSector pyramid1 ⟨0, 10, 0, 10⟩ 90,
      inSector (tileSector pyramid1 t) 5 5 :=
  (c6_tiles_cover pyramid1 ⟨0, 10, 0, 10⟩ 90 (by decide)
    ⟨0, by decide, by norm_num [levelResolution, deltaLat, rowCount, pyramid1]⟩).2.2.2.2
    5 5 (by decide) (by decide)

end WWSpec
